import Mathlib

/-!
Verification of the evaluator in `src/evaluator/index.js` (a GROQ-style
query evaluator).  The JavaScript source is shallowly embedded: JS data
becomes `JSValue`, the evaluator's `Value` wrappers (`StaticValue`,
`StreamValue`, plus the bare `null` escaped from the Slice executor)
become `Value`, AST nodes become `Node`/`ObjAttr`, and each member of the
source's `EXECUTORS` dispatch table becomes one arm of `execute`.
Thrown JS exceptions are modelled with the `Except EvalError` monad;
lazily streamed sequences are modelled as eagerly computed lists (pure
evaluation makes the two observationally equal at materialization).
-/

namespace Groq

/-- Materialized JavaScript data as it appears in this evaluator:
the six GROQ types plus `fnVal`, an opaque marker for a JS function
value (only reachable when a splat copies a stream wrapper's
`generator` field). Numbers are modelled as integers; every claim
under verification concerns integral indices and payloads. -/
inductive JSValue where
  | null
  | bool (b : Bool)
  | num (n : Int)
  | str (s : String)
  | obj (fields : List (String × JSValue))
  | arr (elems : List JSValue)
  | fnVal
deriving Repr

/-- Mirrors the type-tag table used by `getType()` in the value
module: `null`, `array`, or the JS `typeof` result. -/
def JSValue.typeOf : JSValue → String
  | .null => "null"
  | .bool _ => "boolean"
  | .num _ => "number"
  | .str _ => "string"
  | .obj _ => "object"
  | .arr _ => "array"
  | .fnVal => "function"

/-- Underlying list of an array datum (call sites are guarded by an
`array` type test, so the default branch is unreachable there). -/
def JSValue.asArr : JSValue → List JSValue
  | .arr xs => xs
  | _ => []

/-- Underlying integer of a number datum (guarded at call sites). -/
def JSValue.asNum : JSValue → Int
  | .num n => n
  | _ => 0

/-- Underlying field list of an object datum (guarded at call sites). -/
def JSValue.asObj : JSValue → List (String × JSValue)
  | .obj fs => fs
  | _ => []

/-- Evaluation results of the executors.  `static d` is a
`StaticValue` holding data `d`; `stream vs` is a `StreamValue`
(modelled eagerly as the list of values its generator yields, which
may themselves be any of the three shapes); `bareNull` is the plain
JS `null` returned by the Slice executor's type-mismatch path
(line 93 of the source), which is not a Value instance at all. -/
inductive Value where
  | static (data : JSValue)
  | stream (elems : List Value)
  | bareNull
deriving Repr

/-- Exceptions thrown by the evaluator: the three `throw new Error`
sites inside executors, the `documents must be an array` throw in
`evaluate`, and `nullAccess`, the JS `TypeError` raised when a method
is invoked on the bare `null` escaped from Slice. -/
inductive EvalError where
  | unknownOperator (op : String)
  | unknownFunction (name : String)
  | unknownNodeType (tag : String)
  | nullAccess
  | documentsMustBeArray
deriving DecidableEq, Repr

/-- True exactly for the three structural errors the spec enumerates
as fatal: unknown operator, unknown function, unknown attribute kind. -/
def EvalError.isStructural : EvalError → Bool
  | .unknownOperator _ => true
  | .unknownFunction _ => true
  | .unknownNodeType _ => true
  | _ => false

/-- The canonical NULL_VALUE singleton of the value module. -/
def NULL_VALUE : Value := .static .null

/-- The canonical TRUE_VALUE singleton. -/
def TRUE_VALUE : Value := .static (.bool true)

/-- The canonical FALSE_VALUE singleton. -/
def FALSE_VALUE : Value := .static (.bool false)

/-- Calling `getType()` on an evaluation result: a `TypeError` on the
bare null, the data's type tag on a static value, `array` on a
stream. -/
def Value.getTypeE : Value → Except EvalError String
  | .bareNull => .error .nullAccess
  | .static d => .ok d.typeOf
  | .stream _ => .ok "array"

/-- Calling `getBoolean()` on an evaluation result: true only for the
literal boolean `true`; a `TypeError` on the bare null. -/
def Value.getBooleanE : Value → Except EvalError Bool
  | .bareNull => .error .nullAccess
  | .static (.bool b) => .ok b
  | .static _ => .ok false
  | .stream _ => .ok false

mutual

/-- Calling `get()` (materialization): a static value yields its data;
a stream drains its elements, materializing each; the bare null has no
`get` method. -/
def Value.getE : Value → Except EvalError JSValue
  | .bareNull => .error .nullAccess
  | .static d => .ok d
  | .stream vs => do
    let ds ← Value.getListE vs
    .ok (.arr ds)

/-- Materializes each value of a stream in order. -/
def Value.getListE : List Value → Except EvalError (List JSValue)
  | [] => .ok []
  | v :: vs => do
    let d ← Value.getE v
    let ds ← Value.getListE vs
    .ok (d :: ds)

end

/-- One-shot iteration (`for await`) over an array-typed value: a
static array yields its elements wrapped as static values, a stream
yields its stored values.  Every call site in the source is guarded by
a `getType() == 'array'` test, so the remaining branches are
unreachable there. -/
def Value.iter : Value → List Value
  | .static (.arr xs) => xs.map .static
  | .stream vs => vs
  | _ => []

/-- Modelled from the spec: the value module (`value.js`) is not under
`src/`, so the wrapper classes are reconstructed from the §6 Value
contract together with the evaluator's own uses.  A `StaticValue`
stores its payload in the single own enumerable field `data` (the
evaluator reads `key.data` and `doc.data._id`), and a `StreamValue`
stores its generator function in the own field `generator`.  These are
the own enumerable properties `Object.assign` copies when the splat
case passes the wrapper itself as a source; `Object.assign` ignores a
`null` source. -/
def Value.ownProps : Value → List (String × JSValue)
  | .static d => [("data", d)]
  | .stream _ => [("generator", .fnVal)]
  | .bareNull => []

/-- String payload of a string-typed static value (`key.data` in the
source; call sites are guarded by a `string` type test). -/
def Value.asStr : Value → String
  | .static (.str s) => s
  | _ => ""

/-- JS property assignment `m[k] = v`: updates the value in place when
the key exists (keeping insertion order), otherwise appends. -/
def jsSet (m : List (String × JSValue)) (k : String) (v : JSValue) :
    List (String × JSValue) :=
  match m with
  | [] => [(k, v)]
  | (k', v') :: rest =>
    if k' == k then (k', v) :: rest else (k', v') :: jsSet rest k v

/-- JS `Object.assign(dst, src)`: copies each binding of `src` into
`dst` left to right, later keys overwriting earlier ones. -/
def objAssign (dst src : List (String × JSValue)) :
    List (String × JSValue) :=
  src.foldl (fun acc kv => jsSet acc kv.1 kv.2) dst

/-- JS property read `d[k]` on materialized data: a `TypeError` on
`null`, a field lookup on an object, `undefined` (here `none`) on any
other primitive. -/
def jsPropE (d : JSValue) (k : String) : Except EvalError (Option JSValue) :=
  match d with
  | .null => .error .nullAccess
  | .obj fs => .ok (fs.lookup k)
  | _ => .ok none

mutual

/-- AST nodes, one constructor per key of the source's `EXECUTORS`
dispatch table.  The parser contract (spec §6) fixes this closed set
of node kinds; object attribute specifications, dispatched by a
`switch` over `attr.type` with a throwing `default` arm, additionally
carry an `unknown` case for any other tag string. -/
inductive Node where
  | this
  | star
  | parent
  | opCall (op : String) (left right : Node)
  | funcCall (name : String) (args : List Node)
  | filter (base query : Node)
  | element (base index : Node)
  | slice (base left right : Node) (isExclusive : Bool)
  | attribute (base : Node) (name : String)
  | identifier (name : String)
  | value (v : JSValue)
  | projection (base query : Node)
  | flatten (base : Node)
  | deref (base : Node)
  | object (attributes : List ObjAttr)
  | array (elements : List Node)
  | and (left right : Node)
  | not (base : Node)

/-- Attribute specifications of an Object construction node:
`ObjectSplat`, `ObjectAttribute` with key and value expressions, or
any other tag (hitting the `default: throw` arm). -/
inductive ObjAttr where
  | splat
  | attribute (key value : Node)
  | unknown (tag : String)

end

/-- The lexical scope: parameter bindings (raw data, as in the
source's `{identity: 'groot'}`), the document source's document list,
the current value (`this`), and the optional enclosing scope. -/
inductive Scope where
  | mk (params : List (String × JSValue)) (source : List JSValue)
       (value : Value) (parent : Option Scope)

/-- Parameter bindings of a scope. -/
def Scope.params : Scope → List (String × JSValue)
  | .mk p _ _ _ => p

/-- Document list of a scope's document source. -/
def Scope.source : Scope → List JSValue
  | .mk _ d _ _ => d

/-- Current value (`this`) of a scope. -/
def Scope.value : Scope → Value
  | .mk _ _ v _ => v

/-- Enclosing scope, when any. -/
def Scope.parent : Scope → Option Scope
  | .mk _ _ _ p => p

/-- Mirrors `Scope#createNested`: same params and source, new current
value, parent set to the receiver. -/
def Scope.createNested (s : Scope) (v : Value) : Scope :=
  .mk s.params s.source v (some s)

/-- Mirrors `StaticSource#createSink`: the whole document list as one
static array value. -/
def Scope.createSink (s : Scope) : Value :=
  .static (.arr s.source)

/-- Modelled from the spec: the operator and function registries live
in `operators.js` and `functions.js`, which are not under `src/`.
Per the §6 contracts they map names to implementations returning a
Value; the `execute` callback the source passes to implementations is
omitted here so that registry entries are plain total functions. -/
structure Registries where
  operators : String → Option (Node → Node → Scope → Value)
  functions : String → Option (List Node → Scope → Value)

/-- The empty registries: every operator and function name unknown. -/
def emptyReg : Registries := ⟨fun _ => none, fun _ => none⟩

/-- The linear scan of the Deref executor: walks the document source's
sink, reading each document's `_id` (a `TypeError` if a document is
`null`), and returns the first document whose `_id` equals the
reference string, or NULL_VALUE when the source is exhausted. -/
def derefScan (docs : List JSValue) (id : String) : Except EvalError Value :=
  match docs with
  | [] => .ok NULL_VALUE
  | d :: rest => do
    let p ← jsPropE d "_id"
    match p with
    | some (.str s) => if s == id then .ok (.static d) else derefScan rest id
    | _ => derefScan rest id

/-- The generator body of the Flatten executor: for each value of the
base sequence, an array-typed value contributes its own elements
(depth one) and any other value contributes a single NULL_VALUE; the
bare null has no `getType` method. -/
def flattenL (vs : List Value) : Except EvalError (List Value) :=
  match vs with
  | [] => .ok []
  | v :: rest => do
    let t ← v.getTypeE
    let tail ← flattenL rest
    .ok ((if t == "array" then v.iter else [NULL_VALUE]) ++ tail)

mutual

/-- The node-dispatch execution algorithm: one arm per member of the
source's `EXECUTORS` table, evaluated in the source's statement order
(type guards before materialization, left bound's type before the
right bound's, and so on). -/
def execute (reg : Registries) : Node → Scope → Except EvalError Value
  | .this, s => .ok s.value
  | .star, s => .ok s.createSink
  | .parent, s =>
    match s.parent with
    | some p => .ok p.value
    | none => .ok NULL_VALUE
  | .opCall op left right, s =>
    match reg.operators op with
    | none => .error (.unknownOperator op)
    | some f => .ok (f left right s)
  | .funcCall name args, s =>
    match reg.functions name with
    | none => .error (.unknownFunction name)
    | some f => .ok (f args s)
  | .filter base query, s => do
    let bv ← execute reg base s
    let t ← bv.getTypeE
    if t != "array" then .ok NULL_VALUE
    else do
      let kept ← execFilterL reg query s bv.iter
      .ok (.stream kept)
  | .element base index, s => do
    let av ← execute reg base s
    let ta ← av.getTypeE
    if ta != "array" then .ok NULL_VALUE
    else do
      let iv ← execute reg index s
      let ti ← iv.getTypeE
      if ti != "number" then .ok NULL_VALUE
      else do
        let arr := (← av.getE).asArr
        let idx0 := (← iv.getE).asNum
        let idx := if idx0 < 0 then (arr.length : Int) + idx0 else idx0
        if 0 ≤ idx ∧ idx < (arr.length : Int) then
          .ok (.static (arr.getD idx.toNat .null))
        else
          .ok NULL_VALUE
  | .slice base left right isExclusive, s => do
    let av ← execute reg base s
    let ta ← av.getTypeE
    if ta != "array" then .ok NULL_VALUE
    else do
      let lv ← execute reg left s
      let rv ← execute reg right s
      let tl ← lv.getTypeE
      if tl != "number" then .ok .bareNull
      else do
        let tr ← rv.getTypeE
        if tr != "number" then .ok .bareNull
        else do
          let arr := (← av.getE).asArr
          let leftIdx0 := (← lv.getE).asNum
          let rightIdx0 := (← rv.getE).asNum
          let leftIdx1 :=
            if leftIdx0 < 0 then (arr.length : Int) + leftIdx0 else leftIdx0
          let rightIdx1 :=
            if rightIdx0 < 0 then (arr.length : Int) + rightIdx0 else rightIdx0
          let rightIdx2 := if isExclusive then rightIdx1 else rightIdx1 + 1
          let leftIdx := if leftIdx1 < 0 then 0 else leftIdx1
          let rightIdx := if rightIdx2 < 0 then 0 else rightIdx2
          .ok (.static (.arr ((arr.take rightIdx.toNat).drop leftIdx.toNat)))
  | .attribute base name, s => do
    let bv ← execute reg base s
    let t ← bv.getTypeE
    if t == "object" then do
      let d ← bv.getE
      match (d.asObj).lookup name with
      | some v => .ok (.static v)
      | none => .ok NULL_VALUE
    else .ok NULL_VALUE
  | .identifier name, s => do
    let t ← s.value.getTypeE
    if t == "object" then do
      let d ← s.value.getE
      match (d.asObj).lookup name with
      | some v => .ok (.static v)
      | none => .ok NULL_VALUE
    else .ok NULL_VALUE
  | .value v, _ => .ok (.static v)
  | .projection base query, s => do
    let bv ← execute reg base s
    let t ← bv.getTypeE
    if t == "array" then do
      let results ← execProjL reg query s bv.iter
      .ok (.stream results)
    else
      execute reg query (s.createNested bv)
  | .flatten base, s => do
    let bv ← execute reg base s
    let t ← bv.getTypeE
    if t != "array" then .ok NULL_VALUE
    else do
      let flat ← flattenL bv.iter
      .ok (.stream flat)
  | .deref base, s => do
    let bv ← execute reg base s
    let t ← bv.getTypeE
    if t != "object" then .ok NULL_VALUE
    else do
      let d ← bv.getE
      match (d.asObj).lookup "_ref" with
      | some (.str id) => derefScan s.source id
      | _ => .ok NULL_VALUE
  | .object attrs, s => do
    let fields ← execAttrs reg s attrs []
    .ok (.static (.obj fields))
  | .array elems, s => do
    let vs ← execElems reg s elems
    .ok (.stream vs)
  | .and left right, s => do
    let lv ← execute reg left s
    let lb ← lv.getBooleanE
    if !lb then .ok FALSE_VALUE
    else do
      let rv ← execute reg right s
      let rb ← rv.getBooleanE
      if !rb then .ok FALSE_VALUE else .ok TRUE_VALUE
  | .not base, s => do
    let v ← execute reg base s
    let b ← v.getBooleanE
    .ok (if b then FALSE_VALUE else TRUE_VALUE)
termination_by n _ => (sizeOf n, 0)

/-- The generator body of the Filter executor: evaluates the query in
a nested scope per element and keeps the elements whose result's
boolean coercion is true. -/
def execFilterL (reg : Registries) (query : Node) (s : Scope) :
    List Value → Except EvalError (List Value)
  | [] => .ok []
  | v :: vs => do
    let cond ← execute reg query (s.createNested v)
    let b ← cond.getBooleanE
    let rest ← execFilterL reg query s vs
    .ok (if b then v :: rest else rest)
termination_by vs => (sizeOf query, vs.length + 1)

/-- The generator body of the Projection executor over an array base:
evaluates the query in a nested scope per element and yields each
result. -/
def execProjL (reg : Registries) (query : Node) (s : Scope) :
    List Value → Except EvalError (List Value)
  | [] => .ok []
  | v :: vs => do
    let r ← execute reg query (s.createNested v)
    let rest ← execProjL reg query s vs
    .ok (r :: rest)
termination_by vs => (sizeOf query, vs.length + 1)

/-- The attribute loop of the Object executor, threading the result
mapping: a splat `Object.assign`s the current scope value's own
properties; a key/value attribute is skipped when the key is not a
string or the value is null, and otherwise stored by JS assignment;
any other attribute kind throws. -/
def execAttrs (reg : Registries) (s : Scope) :
    List ObjAttr → List (String × JSValue) →
    Except EvalError (List (String × JSValue))
  | [], acc => .ok acc
  | .splat :: rest, acc =>
    execAttrs reg s rest (objAssign acc s.value.ownProps)
  | .attribute keyN valN :: rest, acc => do
    let key ← execute reg keyN s
    let tk ← key.getTypeE
    if tk != "string" then execAttrs reg s rest acc
    else do
      let v ← execute reg valN s
      let tv ← v.getTypeE
      if tv == "null" then execAttrs reg s rest acc
      else do
        let dv ← v.getE
        execAttrs reg s rest (jsSet acc key.asStr dv)
  | .unknown tag :: _, _ => .error (.unknownNodeType tag)
termination_by attrs _ => (sizeOf attrs, 0)

/-- The generator body of the Array construction executor: evaluates
each element expression against the unmodified outer scope. -/
def execElems (reg : Registries) (s : Scope) :
    List Node → Except EvalError (List Value)
  | [] => .ok []
  | n :: ns => do
    let v ← execute reg n s
    let rest ← execElems reg s ns
    .ok (v :: rest)
termination_by ns => (sizeOf ns, 0)

end

/-- Options accepted by `evaluate`.  `documents = none` models an
absent (or `undefined`) property and `some .null` an explicit `null`;
the source's loose `options.documents != null` test treats the two
alike.  `params = none` models a falsy `options.params`, under which
the merge is skipped. -/
structure EvalOptions where
  documents : Option JSValue
  params : Option (List (String × JSValue))

/-- The built-in parameter set `{identity: 'groot'}`. -/
def defaultParams : List (String × JSValue) := [("identity", .str "groot")]

/-- Parameter bindings after `evaluate`'s `Object.assign(params,
options.params)`: caller-supplied bindings shallow-merged over the
defaults. -/
def mergedParams (p : Option (List (String × JSValue))) :
    List (String × JSValue) :=
  match p with
  | none => defaultParams
  | some ps => objAssign defaultParams ps

/-- The exported entry point: builds the document source (empty when
`documents` is absent or `null`, fatal when present non-null but not
an array), merges parameters over the defaults, and executes the tree
in a root scope whose current value is NULL_VALUE. -/
def evaluate (reg : Registries) (tree : Node) (o : EvalOptions) :
    Except EvalError Value :=
  match o.documents with
  | none => execute reg tree (.mk (mergedParams o.params) [] NULL_VALUE none)
  | some .null =>
    execute reg tree (.mk (mergedParams o.params) [] NULL_VALUE none)
  | some (.arr ds) =>
    execute reg tree (.mk (mergedParams o.params) ds NULL_VALUE none)
  | some _ => .error .documentsMustBeArray

/-- The per-element predicate evaluation of the Filter executor,
collected into a list of booleans: the query evaluated in a nested
scope, followed by its boolean coercion. -/
def execConds (reg : Registries) (query : Node) (s : Scope) :
    List Value → Except EvalError (List Bool)
  | [] => .ok []
  | v :: vs => do
    let cond ← execute reg query (s.createNested v)
    let b ← cond.getBooleanE
    let rest ← execConds reg query s vs
    .ok (b :: rest)

/-- Keeps the elements of `l` whose companion boolean in `bs` is true,
preserving order. -/
def chooseMask (l : List Value) (bs : List Bool) : List Value :=
  ((l.zip bs).filter (fun p => p.2)).map (fun p => p.1)

/-- Written from the spec's description of Flatten: whether a value's
`getType()` reports `array` (the bare null, having no such method,
does not). -/
def Value.isArrayType (v : Value) : Bool :=
  match v.getTypeE with
  | .ok "array" => true
  | _ => false

/-- Written from the spec's description of dereference matching: a
document matches a reference id when it is an object whose `_id`
field is exactly that string. -/
def matchId (id : String) (d : JSValue) : Bool :=
  match d with
  | .obj fs =>
    match fs.lookup "_id" with
    | some (.str s) => s == id
    | _ => false
  | _ => false

/-- Written from the spec's description of Slice: negative bounds are
normalized by adding the length, an inclusive right bound is bumped by
one, both bounds are clamped to non-negative (not to the length), and
the half-open range `[left, right)` is taken. -/
def sliceSpec (A : List JSValue) (l r : Int) (exclusive : Bool) :
    List JSValue :=
  let len : Int := A.length
  let l1 := if l < 0 then len + l else l
  let r1 := if r < 0 then len + r else r
  let r2 := if exclusive then r1 else r1 + 1
  let l2 := max l1 0
  let r3 := max r2 0
  (A.take r3.toNat).drop l2.toNat

/-- Computation rule for bind on a successful `Except`. -/
@[simp] theorem ok_bind {α β ε : Type _} (a : α) (f : α → Except ε β) :
    (Except.ok a >>= f) = f a := rfl

/-- Computation rule for bind on a failed `Except`. -/
@[simp] theorem error_bind {α β ε : Type _} (e : ε) (f : α → Except ε β) :
    ((Except.error e : Except ε α) >>= f) = .error e := rfl

/-- Computation rule for pure on `Except`. -/
@[simp] theorem pure_eq_ok {α ε : Type _} (a : α) :
    (pure a : Except ε α) = .ok a := rfl

/-- Inversion of a failing bind: either the first computation failed
with the same error, or it succeeded and the continuation failed. -/
theorem bind_eq_error {α β ε : Type _} {x : Except ε α} {f : α → Except ε β}
    {e : ε} (h : (x >>= f) = .error e) :
    x = .error e ∨ ∃ a, x = .ok a ∧ f a = .error e := by
  cases x with
  | error e' => simp_all
  | ok a => exact .inr ⟨a, rfl, by simpa using h⟩

/-- Looking up the key just assigned finds the assigned value. -/
theorem lookup_jsSet_self (m : List (String × JSValue)) (k : String)
    (v : JSValue) : List.lookup k (jsSet m k v) = some v := by
  induction m with
  | nil => simp [jsSet]
  | cons kv rest ih =>
    rcases kv with ⟨k', v'⟩
    by_cases h : k' = k
    · subst h
      simp [jsSet]
    · have hb : (k' == k) = false := by simp [h]
      have hb2 : (k == k') = false := by simp [Ne.symm h]
      simp [jsSet, hb, List.lookup, hb2, ih]

/-- Assignment to a different key leaves a lookup unchanged. -/
theorem lookup_jsSet_ne (m : List (String × JSValue)) {k k' : String}
    (v : JSValue) (h : k ≠ k') :
    List.lookup k (jsSet m k' v) = List.lookup k m := by
  have hb : (k == k') = false := by simp [h]
  induction m with
  | nil => simp [jsSet, List.lookup, hb]
  | cons kv rest ih =>
    rcases kv with ⟨k0, v0⟩
    by_cases h0 : k0 = k'
    · subst h0
      simp [jsSet, List.lookup, hb]
    · have hb0 : (k0 == k') = false := by simp [h0]
      cases hkk : k == k0 with
      | true => simp [jsSet, hb0, List.lookup, hkk]
      | false => simp [jsSet, hb0, List.lookup, hkk, ih]

/-- A key absent from the merged-in bindings keeps its value after
`Object.assign`. -/
theorem lookup_objAssign_not_mem (src : List (String × JSValue))
    (dst : List (String × JSValue)) (k : String)
    (h : k ∉ src.map Prod.fst) :
    List.lookup k (objAssign dst src) = List.lookup k dst := by
  induction src generalizing dst with
  | nil => simp [objAssign]
  | cons kv rest ih =>
    rcases kv with ⟨k0, v0⟩
    simp only [List.map_cons, List.mem_cons, not_or] at h
    have step : objAssign dst ((k0, v0) :: rest)
        = objAssign (jsSet dst k0 v0) rest := by
      simp [objAssign]
    rw [step, ih (jsSet dst k0 v0) h.2]
    exact lookup_jsSet_ne dst v0 h.1

/-- A binding present among merged-in bindings with distinct keys is
found after `Object.assign`. -/
theorem lookup_objAssign_mem (src : List (String × JSValue))
    (dst : List (String × JSValue)) (k : String) (v : JSValue)
    (hnd : (src.map Prod.fst).Nodup) (h : List.lookup k src = some v) :
    List.lookup k (objAssign dst src) = some v := by
  induction src generalizing dst with
  | nil => simp [List.lookup] at h
  | cons kv rest ih =>
    rcases kv with ⟨k0, v0⟩
    have step : objAssign dst ((k0, v0) :: rest)
        = objAssign (jsSet dst k0 v0) rest := by
      simp [objAssign]
    simp only [List.map_cons, List.nodup_cons] at hnd
    by_cases hk : k = k0
    · subst hk
      simp only [List.lookup, beq_self_eq_true] at h
      have hv : v0 = v := by simpa using h
      subst hv
      rw [step, lookup_objAssign_not_mem rest (jsSet dst k v0) k hnd.1]
      exact lookup_jsSet_self dst k v0
    · have hb : (k == k0) = false := by simp [hk]
      simp only [List.lookup, hb] at h
      rw [step]
      exact ih (jsSet dst k0 v0) hnd.2 h

/-- A failing `getType()` call is always the null-access type error. -/
theorem getTypeE_error {v : Value} {e : EvalError}
    (h : v.getTypeE = .error e) : e = .nullAccess := by
  cases v <;> simp_all [Value.getTypeE]

/-- A failing `getBoolean()` call is always the null-access type
error. -/
theorem getBooleanE_error {v : Value} {e : EvalError}
    (h : v.getBooleanE = .error e) : e = .nullAccess := by
  cases v with
  | bareNull => simp_all [Value.getBooleanE]
  | stream vs => simp [Value.getBooleanE] at h
  | static d => cases d <;> simp_all [Value.getBooleanE]

/-- A failing materialization is always the null-access type error. -/
theorem getE_error : ∀ v : Value, ∀ e, v.getE = .error e → e = .nullAccess := by
  refine Value.getE.induct
    (fun v => ∀ e, v.getE = .error e → e = .nullAccess)
    (fun vs => ∀ e, Value.getListE vs = .error e → e = .nullAccess)
    ?_ ?_ ?_ ?_ ?_
  · intro e h
    simp [Value.getE] at h
    exact h.symm
  · intro d e h
    simp [Value.getE] at h
  · intro vs ih e h
    simp only [Value.getE] at h
    rcases bind_eq_error h with h1 | ⟨ds, _, h2⟩
    · exact ih e h1
    · simp at h2
  · intro e h
    simp [Value.getListE] at h
  · intro v vs ih1 ih2 e h
    simp only [Value.getListE] at h
    rcases bind_eq_error h with h1 | ⟨d, _, h2⟩
    · exact ih1 e h1
    · rcases bind_eq_error h2 with h3 | ⟨ds, _, h4⟩
      · exact ih2 e h3
      · simp at h4

/-- A failing JS property read is always the null-access type error. -/
theorem jsPropE_error {d : JSValue} {k : String} {e : EvalError}
    (h : jsPropE d k = .error e) : e = .nullAccess := by
  cases d <;> simp_all [jsPropE]

/-- A failing dereference scan is always the null-access type error. -/
theorem derefScan_error : ∀ (docs : List JSValue) (id : String) (e : EvalError),
    derefScan docs id = .error e → e = .nullAccess := by
  intro docs
  induction docs with
  | nil => intro id e h; simp [derefScan, NULL_VALUE] at h
  | cons d rest ih =>
    intro id e h
    simp only [derefScan] at h
    rcases bind_eq_error h with h1 | ⟨p, _, h2⟩
    · exact jsPropE_error h1
    · rcases p with _ | w
      · exact ih id e h2
      · cases w with
        | str s =>
          by_cases hs : (s == id) = true
          · simp [hs] at h2
          · simp only [Bool.not_eq_true] at hs
            simp [hs] at h2
            exact ih id e h2
        | null => exact ih id e h2
        | bool b => exact ih id e h2
        | num n => exact ih id e h2
        | obj fs => exact ih id e h2
        | arr xs => exact ih id e h2
        | fnVal => exact ih id e h2

/-- A failing flatten loop is always the null-access type error. -/
theorem flattenL_error : ∀ (vs : List Value) (e : EvalError),
    flattenL vs = .error e → e = .nullAccess := by
  intro vs
  induction vs with
  | nil => intro e h; simp [flattenL] at h
  | cons v rest ih =>
    intro e h
    simp only [flattenL] at h
    rcases bind_eq_error h with h1 | ⟨t, _, h2⟩
    · exact getTypeE_error h1
    · rcases bind_eq_error h2 with h3 | ⟨tail, _, h4⟩
      · exact ih e h3
      · simp at h4

/-- Classification of every error `execute` can raise: one of the
three structural errors of the dispatch rules, or the null-access
type error triggered by inspecting the bare null that the Slice
type-mismatch path returns.  In particular the configuration error of
`evaluate` never arises during node evaluation. -/
theorem execute_error_class (reg : Registries) :
    ∀ (n : Node) (s : Scope) (e : EvalError),
      execute reg n s = .error e →
      e.isStructural = true ∨ e = .nullAccess := by
  refine Groq.execute.induct reg
    (fun n s => ∀ e, execute reg n s = .error e →
      e.isStructural = true ∨ e = .nullAccess)
    (fun s ns => ∀ e, execElems reg s ns = .error e →
      e.isStructural = true ∨ e = .nullAccess)
    (fun s attrs acc => ∀ e, execAttrs reg s attrs acc = .error e →
      e.isStructural = true ∨ e = .nullAccess)
    (fun q s vs => ∀ e, execProjL reg q s vs = .error e →
      e.isStructural = true ∨ e = .nullAccess)
    (fun q s vs => ∀ e, execFilterL reg q s vs = .error e →
      e.isStructural = true ∨ e = .nullAccess)
    ?_ ?_ ?_ ?_ ?_ ?_ ?_ ?_ ?_ ?_ ?_ ?_ ?_ ?_ ?_ ?_ ?_ ?_ ?_ ?_ ?_
    ?_ ?_ ?_ ?_ ?_ ?_ ?_ ?_ ?_ ?_
  -- This
  · intro s e h
    simp [execute] at h
  -- Star
  · intro s e h
    simp [execute] at h
  -- Parent, with a parent scope
  · intro s p hp e h
    simp [execute, hp] at h
  -- Parent, without
  · intro s hp e h
    simp [execute, hp] at h
  -- OpCall, unknown operator
  · intro op l r s hop e h
    simp [execute, hop] at h
    subst h
    exact Or.inl rfl
  -- OpCall, known operator
  · intro op l r s f hop e h
    simp [execute, hop] at h
  -- FuncCall, unknown function
  · intro name args s hfn e h
    simp [execute, hfn] at h
    subst h
    exact Or.inl rfl
  -- FuncCall, known function
  · intro name args s f hfn e h
    simp [execute, hfn] at h
  -- Filter
  · intro base query s ihb ihq e h
    simp only [execute] at h
    rcases bind_eq_error h with h1 | ⟨bv, _, h2⟩
    · exact ihb e h1
    rcases bind_eq_error h2 with h3 | ⟨t, _, h4⟩
    · exact Or.inr (getTypeE_error h3)
    split at h4
    · simp at h4
    rcases bind_eq_error h4 with h5 | ⟨kept, _, h6⟩
    · exact ihq bv e h5
    simp at h6
  -- Element
  · intro base index s ihb ihi e h
    simp only [execute] at h
    rcases bind_eq_error h with h1 | ⟨av, _, h2⟩
    · exact ihb e h1
    rcases bind_eq_error h2 with h3 | ⟨ta, _, h4⟩
    · exact Or.inr (getTypeE_error h3)
    split at h4
    · simp at h4
    rcases bind_eq_error h4 with h5 | ⟨iv, _, h6⟩
    · exact ihi e h5
    rcases bind_eq_error h6 with h7 | ⟨ti, _, h8⟩
    · exact Or.inr (getTypeE_error h7)
    split at h8
    · simp at h8
    rcases bind_eq_error h8 with h9 | ⟨ad, _, h10⟩
    · exact Or.inr (getE_error _ _ h9)
    rcases bind_eq_error h10 with h11 | ⟨idxd, _, h12⟩
    · exact Or.inr (getE_error _ _ h11)
    split at h12 <;> split at h12 <;> simp at h12
  -- Slice
  · intro base l r isExcl s ihb ihl ihr e h
    simp only [execute] at h
    rcases bind_eq_error h with h1 | ⟨av, _, h2⟩
    · exact ihb e h1
    rcases bind_eq_error h2 with h3 | ⟨ta, _, h4⟩
    · exact Or.inr (getTypeE_error h3)
    split at h4
    · simp at h4
    rcases bind_eq_error h4 with h5 | ⟨lv, _, h6⟩
    · exact ihl e h5
    rcases bind_eq_error h6 with h7 | ⟨rv, _, h8⟩
    · exact ihr e h7
    rcases bind_eq_error h8 with h9 | ⟨tl, _, h10⟩
    · exact Or.inr (getTypeE_error h9)
    split at h10
    · simp at h10
    rcases bind_eq_error h10 with h11 | ⟨tr, _, h12⟩
    · exact Or.inr (getTypeE_error h11)
    split at h12
    · simp at h12
    rcases bind_eq_error h12 with h13 | ⟨ad, _, h14⟩
    · exact Or.inr (getE_error _ _ h13)
    rcases bind_eq_error h14 with h15 | ⟨ld, _, h16⟩
    · exact Or.inr (getE_error _ _ h15)
    rcases bind_eq_error h16 with h17 | ⟨rd, _, h18⟩
    · exact Or.inr (getE_error _ _ h17)
    simp at h18
  -- Attribute
  · intro base name s ihb e h
    simp only [execute] at h
    rcases bind_eq_error h with h1 | ⟨bv, _, h2⟩
    · exact ihb e h1
    rcases bind_eq_error h2 with h3 | ⟨t, _, h4⟩
    · exact Or.inr (getTypeE_error h3)
    split at h4
    · rcases bind_eq_error h4 with h5 | ⟨d, _, h6⟩
      · exact Or.inr (getE_error _ _ h5)
      split at h6 <;> simp at h6
    · simp at h4
  -- Identifier
  · intro name s e h
    simp only [execute] at h
    rcases bind_eq_error h with h1 | ⟨t, _, h2⟩
    · exact Or.inr (getTypeE_error h1)
    split at h2
    · rcases bind_eq_error h2 with h3 | ⟨d, _, h4⟩
      · exact Or.inr (getE_error _ _ h3)
      split at h4 <;> simp at h4
    · simp at h2
  -- Value literal
  · intro v s e h
    simp [execute] at h
  -- Projection
  · intro base query s ihb ihp ihq e h
    simp only [execute] at h
    rcases bind_eq_error h with h1 | ⟨bv, _, h2⟩
    · exact ihb e h1
    rcases bind_eq_error h2 with h3 | ⟨t, _, h4⟩
    · exact Or.inr (getTypeE_error h3)
    split at h4
    · rcases bind_eq_error h4 with h5 | ⟨rs, _, h6⟩
      · exact ihp bv e h5
      simp at h6
    · exact ihq bv e h4
  -- Flatten
  · intro base s ihb e h
    simp only [execute] at h
    rcases bind_eq_error h with h1 | ⟨bv, _, h2⟩
    · exact ihb e h1
    rcases bind_eq_error h2 with h3 | ⟨t, _, h4⟩
    · exact Or.inr (getTypeE_error h3)
    split at h4
    · simp at h4
    rcases bind_eq_error h4 with h5 | ⟨flat, _, h6⟩
    · exact Or.inr (flattenL_error _ _ h5)
    simp at h6
  -- Deref
  · intro base s ihb e h
    simp only [execute] at h
    rcases bind_eq_error h with h1 | ⟨bv, _, h2⟩
    · exact ihb e h1
    rcases bind_eq_error h2 with h3 | ⟨t, _, h4⟩
    · exact Or.inr (getTypeE_error h3)
    split at h4
    · simp at h4
    rcases bind_eq_error h4 with h5 | ⟨d, _, h6⟩
    · exact Or.inr (getE_error _ _ h5)
    split at h6
    all_goals first
      | exact Or.inr (derefScan_error _ _ _ h6)
      | simp at h6
  -- Object construction
  · intro attrs s ih3 e h
    simp only [execute] at h
    rcases bind_eq_error h with h1 | ⟨fields, _, h2⟩
    · exact ih3 e h1
    simp at h2
  -- Array construction
  · intro elems s ih2 e h
    simp only [execute] at h
    rcases bind_eq_error h with h1 | ⟨vs, _, h2⟩
    · exact ih2 e h1
    simp at h2
  -- And
  · intro l r s ihl ihr e h
    simp only [execute] at h
    rcases bind_eq_error h with h1 | ⟨lv, _, h2⟩
    · exact ihl e h1
    rcases bind_eq_error h2 with h3 | ⟨lb, _, h4⟩
    · exact Or.inr (getBooleanE_error h3)
    split at h4
    · simp at h4
    rcases bind_eq_error h4 with h5 | ⟨rv, _, h6⟩
    · exact ihr e h5
    rcases bind_eq_error h6 with h7 | ⟨rb, _, h8⟩
    · exact Or.inr (getBooleanE_error h7)
    split at h8 <;> simp at h8
  -- Not
  · intro base s ihb e h
    simp only [execute] at h
    rcases bind_eq_error h with h1 | ⟨v, _, h2⟩
    · exact ihb e h1
    rcases bind_eq_error h2 with h3 | ⟨b, _, h4⟩
    · exact Or.inr (getBooleanE_error h3)
    simp at h4
  -- execElems, nil
  · intro s e h
    simp [execElems] at h
  -- execElems, cons
  · intro s n ns ih1 ih2 e h
    simp only [execElems] at h
    rcases bind_eq_error h with h1 | ⟨v, _, h2⟩
    · exact ih1 e h1
    rcases bind_eq_error h2 with h3 | ⟨rest, _, h4⟩
    · exact ih2 e h3
    simp at h4
  -- execAttrs, nil
  · intro s acc e h
    simp [execAttrs] at h
  -- execAttrs, splat
  · intro s rest acc ih e h
    simp only [execAttrs] at h
    exact ih e h
  -- execAttrs, key/value attribute
  · intro s keyN valN rest acc ihk ihrest ihv ihset e h
    simp only [execAttrs] at h
    rcases bind_eq_error h with h1 | ⟨key, _, h2⟩
    · exact ihk e h1
    rcases bind_eq_error h2 with h3 | ⟨tk, _, h4⟩
    · exact Or.inr (getTypeE_error h3)
    split at h4
    · exact ihrest e h4
    rcases bind_eq_error h4 with h5 | ⟨v, _, h6⟩
    · exact ihv e h5
    rcases bind_eq_error h6 with h7 | ⟨tv, _, h8⟩
    · exact Or.inr (getTypeE_error h7)
    split at h8
    · exact ihrest e h8
    rcases bind_eq_error h8 with h9 | ⟨dv, _, h10⟩
    · exact Or.inr (getE_error _ _ h9)
    exact ihset key dv e h10
  -- execAttrs, unknown attribute kind
  · intro s tag tail acc e h
    simp only [execAttrs] at h
    simp only [Except.error.injEq] at h
    subst h
    exact Or.inl rfl
  -- execProjL, nil
  · intro q s e h
    simp [execProjL] at h
  -- execProjL, cons
  · intro q s v vs ih1 ih2 e h
    simp only [execProjL] at h
    rcases bind_eq_error h with h1 | ⟨r, _, h2⟩
    · exact ih1 e h1
    rcases bind_eq_error h2 with h3 | ⟨rest, _, h4⟩
    · exact ih2 e h3
    simp at h4
  -- execFilterL, nil
  · intro q s e h
    simp [execFilterL] at h
  -- execFilterL, cons
  · intro q s v vs ih1 ih2 e h
    simp only [execFilterL] at h
    rcases bind_eq_error h with h1 | ⟨c, _, h2⟩
    · exact ih1 e h1
    rcases bind_eq_error h2 with h3 | ⟨b, _, h4⟩
    · exact Or.inr (getBooleanE_error h3)
    rcases bind_eq_error h4 with h5 | ⟨rest, _, h6⟩
    · exact ih2 e h5
    simp at h6

/-- Claim C1 (refuted; code bug): the splat case of Object
construction is claimed to merge all own properties of the current
scope's value into the result.  The code instead passes the Value
wrapper itself to `Object.assign` (line 200: `Object.assign(result,
scope.value)` without materializing), so the wrapper's own enumerable
field `data` is what gets copied: projecting `{a: 1}` through an
object consisting of a single splat yields `{"data": {"a": 1}}`, not
`{"a": 1}`. -/
theorem claim_C1 :
    evaluate emptyReg
      (.projection (.value (.obj [("a", .num 1)])) (.object [.splat]))
      ⟨none, none⟩
      = .ok (.static (.obj [("data", .obj [("a", .num 1)])]))
    ∧ evaluate emptyReg
      (.projection (.value (.obj [("a", .num 1)])) (.object [.splat]))
      ⟨none, none⟩
      ≠ .ok (.static (.obj [("a", .num 1)])) := by
  constructor
  · simp [evaluate, execute, execAttrs, Value.getTypeE, JSValue.typeOf,
      Scope.createNested, Value.ownProps, objAssign, jsSet, Scope.value,
      Scope.params, Scope.source, NULL_VALUE, mergedParams]
  · simp [evaluate, execute, execAttrs, Value.getTypeE, JSValue.typeOf,
      Scope.createNested, Value.ownProps, objAssign, jsSet, Scope.value,
      Scope.params, Scope.source, NULL_VALUE, mergedParams]

/-- Claim C2, counterexample: a pure data-shape mismatch that aborts
evaluation with an error that is none of the three structural
conditions.  A Slice whose left bound is a string returns the bare
null marker, and the enclosing Attribute node's `getType()` call on it
raises the null-access type error, aborting the whole evaluation. -/
theorem claim_C2_counterexample :
    evaluate emptyReg
      (.attribute (.slice (.value (.arr [.num 1])) (.value (.str "a"))
        (.value (.num 0)) true) "x") ⟨none, none⟩ = .error .nullAccess
    ∧ EvalError.nullAccess.isStructural = false := by
  constructor
  · simp [evaluate, execute, Value.getTypeE, JSValue.typeOf, NULL_VALUE,
      mergedParams]
  · rfl

/-- Claim C2 (amended): unknown operator name, unknown function name,
and unknown object-attribute-spec kind abort the evaluation, and every
error `execute` raises is either one of those three structural errors
or the null-access type error triggered when a consuming node
inspects the bare absence-of-value marker of a Slice type-mismatch;
every other semantic mismatch yields the null Value and evaluation
continues. -/
theorem claim_C2 (reg : Registries) :
    (∀ (n : Node) (s : Scope) (e : EvalError),
        execute reg n s = .error e →
        e.isStructural = true ∨ e = .nullAccess)
    ∧ (∀ (op : String) (l r : Node) (s : Scope), reg.operators op = none →
        execute reg (.opCall op l r) s = .error (.unknownOperator op))
    ∧ (∀ (fname : String) (args : List Node) (s : Scope),
        reg.functions fname = none →
        execute reg (.funcCall fname args) s = .error (.unknownFunction fname))
    ∧ (∀ (tag : String) (s : Scope),
        execute reg (.object [.unknown tag]) s
          = .error (.unknownNodeType tag)) := by
  refine ⟨execute_error_class reg, ?_, ?_, ?_⟩
  · intro op l r s hop
    simp [execute, hop]
  · intro fname args s hf
    simp [execute, hf]
  · intro tag s
    simp [execute, execAttrs]

/-- Claim C2, witness: the amended classification applied to the
concrete unknown-operator abort under the empty registries. -/
theorem claim_C2_witness :
    (EvalError.unknownOperator "+").isStructural = true
    ∨ EvalError.unknownOperator "+" = .nullAccess :=
  (claim_C2 emptyReg).1 (.opCall "+" .this .this) (.mk [] [] NULL_VALUE none)
    (.unknownOperator "+") (by simp [execute, emptyReg])

/-- Claim C3, counterexample: an explicitly null `documents` option is
present and is not an array, yet evaluation does not raise the
configuration error — the source's loose `options.documents != null`
test treats an explicit `null` like an omitted option and evaluates
against the empty document source. -/
theorem claim_C3_counterexample :
    evaluate emptyReg .this ⟨some .null, none⟩ = .ok NULL_VALUE
    ∧ evaluate emptyReg .this ⟨some .null, none⟩
        ≠ .error .documentsMustBeArray := by
  constructor
  · simp [evaluate, execute, Scope.value]
  · simp [evaluate, execute, Scope.value]

/-- Claim C3 (amended): an omitted or explicitly null `documents`
option evaluates against an empty document source; a present,
non-null, non-array `documents` raises the fatal configuration error
before any node evaluation (for every tree); an array becomes the
document source. -/
theorem claim_C3 (reg : Registries) (tree : Node) (o : EvalOptions) :
    (o.documents = none →
      evaluate reg tree o
        = execute reg tree (.mk (mergedParams o.params) [] NULL_VALUE none))
    ∧ (o.documents = some .null →
      evaluate reg tree o
        = execute reg tree (.mk (mergedParams o.params) [] NULL_VALUE none))
    ∧ (∀ d, o.documents = some d → d ≠ .null → (∀ ds, d ≠ .arr ds) →
        evaluate reg tree o = .error .documentsMustBeArray)
    ∧ (∀ ds, o.documents = some (.arr ds) →
        evaluate reg tree o
          = execute reg tree (.mk (mergedParams o.params) ds NULL_VALUE none))
    := by
  obtain ⟨docs, ps⟩ := o
  refine ⟨?_, ?_, ?_, ?_⟩
  · intro h
    cases h
    simp [evaluate]
  · intro h
    cases h
    simp [evaluate]
  · intro d h hnull harr
    cases h
    cases d with
    | null => exact absurd rfl hnull
    | arr ds => exact absurd rfl (harr ds)
    | bool b => simp [evaluate]
    | num n => simp [evaluate]
    | str s => simp [evaluate]
    | obj fs => simp [evaluate]
    | fnVal => simp [evaluate]
  · intro ds h
    cases h
    simp [evaluate]

/-- Claim C3, witness: a numeric `documents` option is fatal even for
a tree that would itself abort differently. -/
theorem claim_C3_witness :
    evaluate emptyReg (.funcCall "missing" []) ⟨some (.num 1), none⟩
      = .error .documentsMustBeArray :=
  (claim_C3 emptyReg (.funcCall "missing" []) ⟨some (.num 1), none⟩).2.2.1
    (.num 1) rfl (by simp) (by intro ds; simp)

/-- Claim C10: caller-supplied params are shallow-merged over the
default set `{identity: 'groot'}`: the default `identity` binding
survives when the caller does not bind that name, every
caller-supplied binding (including one named `identity`, which then
replaces the default) is found in the merged set, and the merged set
is installed in the root scope for the whole evaluation. -/
theorem claim_C10 :
    (∀ ps : List (String × JSValue),
      ("identity" ∉ ps.map Prod.fst →
        List.lookup "identity" (mergedParams (some ps))
          = some (.str "groot"))
      ∧ (∀ k v, (ps.map Prod.fst).Nodup → List.lookup k ps = some v →
          List.lookup k (mergedParams (some ps)) = some v))
    ∧ (∀ (reg : Registries) (tree : Node)
        (p : Option (List (String × JSValue))),
        evaluate reg tree ⟨none, p⟩
          = execute reg tree (.mk (mergedParams p) [] NULL_VALUE none)) := by
  constructor
  · intro ps
    constructor
    · intro h
      simp only [mergedParams]
      rw [lookup_objAssign_not_mem ps defaultParams "identity" h]
      simp [defaultParams, List.lookup]
    · intro k v hnd h
      simp only [mergedParams]
      exact lookup_objAssign_mem ps defaultParams k v hnd h
  · intro reg tree p
    simp [evaluate]

/-- Claim C10, witness: a caller-supplied `identity` binding replaces
the built-in default in the merged parameter set. -/
theorem claim_C10_witness :
    List.lookup "identity"
      (mergedParams (some [("identity", JSValue.str "me"),
        ("x", JSValue.num 7)]))
      = some (.str "me") :=
  (claim_C10.1 _).2 "identity" (.str "me") (by simp)
    (by simp [List.lookup])

/-- Claim C4: a Slice with a non-array base yields the canonical
NULL_VALUE, while a Slice whose left or right bound evaluates to a
non-number yields the bare absence-of-value marker, which is distinct
from the canonical null Value. -/
theorem claim_C4 (reg : Registries) (s : Scope)
    (base left right : Node) (ex : Bool) :
    (∀ bv t, execute reg base s = .ok bv → bv.getTypeE = .ok t →
      t ≠ "array" →
      execute reg (.slice base left right ex) s = .ok NULL_VALUE)
    ∧ (∀ bv lv rv tl, execute reg base s = .ok bv →
        bv.getTypeE = .ok "array" →
        execute reg left s = .ok lv → execute reg right s = .ok rv →
        lv.getTypeE = .ok tl → tl ≠ "number" →
        execute reg (.slice base left right ex) s = .ok .bareNull)
    ∧ (∀ bv lv rv tr, execute reg base s = .ok bv →
        bv.getTypeE = .ok "array" →
        execute reg left s = .ok lv → execute reg right s = .ok rv →
        lv.getTypeE = .ok "number" → rv.getTypeE = .ok tr →
        tr ≠ "number" →
        execute reg (.slice base left right ex) s = .ok .bareNull)
    ∧ Value.bareNull ≠ NULL_VALUE := by
  refine ⟨?_, ?_, ?_, ?_⟩
  · intro bv t hb ht hne
    simp [execute, hb, ht, hne]
  · intro bv lv rv tl hb ht hl hr htl hne
    simp [execute, hb, ht, hl, hr, htl, hne]
  · intro bv lv rv tr hb ht hl hr htl htr hne
    simp [execute, hb, ht, hl, hr, htl, htr, hne]
  · simp [NULL_VALUE]

/-- Claim C4, witness: a string left bound over an array base yields
the bare null marker. -/
theorem claim_C4_witness :
    execute emptyReg (.slice (.value (.arr [.num 1])) (.value (.str "a"))
      (.value (.num 0)) true) (.mk [] [] NULL_VALUE none)
      = .ok .bareNull :=
  (claim_C4 emptyReg (.mk [] [] NULL_VALUE none) (.value (.arr [.num 1]))
    (.value (.str "a")) (.value (.num 0)) true).2.1
    (.static (.arr [.num 1])) (.static (.str "a")) (.static (.num 0))
    "string" (by simp [execute]) (by simp [Value.getTypeE, JSValue.typeOf])
    (by simp [execute]) (by simp [execute])
    (by simp [Value.getTypeE, JSValue.typeOf]) (by simp)

/-- Claim C5: Element yields NULL_VALUE on a non-array base or
non-number index; over array `A` with integer index `i`, a negative
index is normalized by adding the length, an in-range normalized index
yields that element as an eager (static) Value, and an out-of-range
normalized index yields NULL_VALUE. -/
theorem claim_C5 (reg : Registries) (s : Scope) (base index : Node) :
    (∀ bv t, execute reg base s = .ok bv → bv.getTypeE = .ok t →
      t ≠ "array" →
      execute reg (.element base index) s = .ok NULL_VALUE)
    ∧ (∀ bv iv t, execute reg base s = .ok bv → bv.getTypeE = .ok "array" →
        execute reg index s = .ok iv → iv.getTypeE = .ok t →
        t ≠ "number" →
        execute reg (.element base index) s = .ok NULL_VALUE)
    ∧ (∀ bv (A : List JSValue) (i : Int),
        execute reg base s = .ok bv → bv.getTypeE = .ok "array" →
        bv.getE = .ok (.arr A) →
        execute reg index s = .ok (.static (.num i)) →
        execute reg (.element base index) s =
          .ok (if 0 ≤ (if i < 0 then (A.length : Int) + i else i)
                ∧ (if i < 0 then (A.length : Int) + i else i)
                  < (A.length : Int)
               then Value.static
                 (A.getD (if i < 0 then (A.length : Int) + i else i).toNat
                   .null)
               else NULL_VALUE)) := by
  refine ⟨?_, ?_, ?_⟩
  · intro bv t hb ht hne
    simp [execute, hb, ht, hne]
  · intro bv iv t hb ht hi hit hne
    simp [execute, hb, ht, hi, hit, hne]
  · intro bv A i hb ht hA hi
    have hit : (Value.static (JSValue.num i)).getTypeE = .ok "number" := rfl
    have hig : (Value.static (JSValue.num i)).getE = .ok (.num i) := by
      simp [Value.getE]
    simp [execute, hb, ht, hA, hi, hit, hig, JSValue.asArr, JSValue.asNum]
    rw [apply_ite Except.ok]

/-- Claim C5, witness: index `-1` over `[10, 20, 30]` is normalized to
`2` and yields the eager element `30`. -/
theorem claim_C5_witness :
    execute emptyReg
      (.element (.value (.arr [.num 10, .num 20, .num 30]))
        (.value (.num (-1)))) (.mk [] [] NULL_VALUE none)
      = .ok (.static (.num 30)) := by
  have h := (claim_C5 emptyReg (.mk [] [] NULL_VALUE none)
    (.value (.arr [.num 10, .num 20, .num 30])) (.value (.num (-1)))).2.2
    (.static (.arr [.num 10, .num 20, .num 30]))
    [.num 10, .num 20, .num 30] (-1)
    (by simp [execute]) (by simp [Value.getTypeE, JSValue.typeOf])
    (by simp [Value.getE]) (by simp [execute])
  simpa [List.getD] using h

/-- Claim C6: Slice over an array base with numeric bounds normalizes
negative bounds by the length, bumps an inclusive right bound by one,
clamps both bounds to non-negative (not to the length), and takes the
half-open range; in particular bounds 1..2 over [1,2,3,4] give [2,3]
inclusively and [2] exclusively. -/
theorem claim_C6 (reg : Registries) (s : Scope)
    (base left right : Node) (ex : Bool) :
    (∀ bv (A : List JSValue) (l r : Int),
      execute reg base s = .ok bv → bv.getTypeE = .ok "array" →
      bv.getE = .ok (.arr A) →
      execute reg left s = .ok (.static (.num l)) →
      execute reg right s = .ok (.static (.num r)) →
      execute reg (.slice base left right ex) s
        = .ok (.static (.arr (sliceSpec A l r ex))))
    ∧ execute reg (.slice (.value (.arr [.num 1, .num 2, .num 3, .num 4]))
        (.value (.num 1)) (.value (.num 2)) false) s
        = .ok (.static (.arr [.num 2, .num 3]))
    ∧ execute reg (.slice (.value (.arr [.num 1, .num 2, .num 3, .num 4]))
        (.value (.num 1)) (.value (.num 2)) true) s
        = .ok (.static (.arr [.num 2])) := by
  refine ⟨?_, ?_, ?_⟩
  · intro bv A l r hb ht hA hl hr
    have hmax : ∀ x : Int, (if x < 0 then (0 : Int) else x) = max x 0 := by
      intro x
      rcases le_or_lt 0 x with hx | hx
      · rw [if_neg (not_lt.mpr hx), max_eq_left hx]
      · rw [if_pos hx, max_eq_right hx.le]
    have hlt : (Value.static (JSValue.num l)).getTypeE = .ok "number" := rfl
    have hrt : (Value.static (JSValue.num r)).getTypeE = .ok "number" := rfl
    have hlg : (Value.static (JSValue.num l)).getE = .ok (.num l) := by
      simp [Value.getE]
    have hrg : (Value.static (JSValue.num r)).getE = .ok (.num r) := by
      simp [Value.getE]
    simp [execute, hb, ht, hA, hl, hr, hlt, hrt, hlg, hrg,
      JSValue.asArr, JSValue.asNum, sliceSpec, hmax]
  · simp [execute, Value.getTypeE, JSValue.typeOf, Value.getE,
      JSValue.asArr, JSValue.asNum]
  · simp [execute, Value.getTypeE, JSValue.typeOf, Value.getE,
      JSValue.asArr, JSValue.asNum]

/-- A value whose `getType()` is known reports `array` exactly when
that type tag is the string `array`. -/
theorem isArrayType_spec (v : Value) (t : String)
    (h : v.getTypeE = .ok t) : v.isArrayType = (t == "array") := by
  by_cases harr : t = "array"
  · subst harr
    simp [Value.isArrayType, h]
  · simp [Value.isArrayType, h, harr]

/-- Unfolding of the flatten loop on a success: each array-typed value
contributes its iterated elements, every other value a single
NULL_VALUE, in base order. -/
theorem flattenL_flatMap : ∀ (vs ws : List Value),
    flattenL vs = .ok ws →
    ws = vs.flatMap (fun v =>
      if v.isArrayType then v.iter else [NULL_VALUE]) := by
  intro vs
  induction vs with
  | nil =>
    intro ws h
    simp only [flattenL] at h
    have hw : ws = [] := by simpa using h.symm
    simp [hw]
  | cons v rest ih =>
    intro ws h
    simp only [flattenL] at h
    cases hq : v.getTypeE with
    | error e => simp [hq] at h
    | ok t =>
      simp only [hq, ok_bind] at h
      cases hr : flattenL rest with
      | error e => simp [hr] at h
      | ok tail =>
        simp only [hr, ok_bind] at h
        have hw : ws = (if t == "array" then v.iter else [NULL_VALUE])
            ++ tail := by
          simpa using h.symm
        subst hw
        rw [List.flatMap_cons, ← ih tail hr]
        congr 1
        rw [isArrayType_spec v t hq]

/-- Peeling one element and its mask bit off `chooseMask`. -/
theorem chooseMask_cons (v : Value) (l : List Value) (b : Bool)
    (bs : List Bool) :
    chooseMask (v :: l) (b :: bs)
      = if b then v :: chooseMask l bs else chooseMask l bs := by
  cases b <;> simp [chooseMask]

/-- A mask selection is always a sublist of the source list. -/
theorem chooseMask_sublist : ∀ (l : List Value) (bs : List Bool),
    List.Sublist (chooseMask l bs) l := by
  intro l
  induction l with
  | nil => intro bs; simp [chooseMask]
  | cons v rest ih =>
    intro bs
    cases bs with
    | nil => simp [chooseMask]
    | cons b bs =>
      rw [chooseMask_cons]
      cases b with
      | true => simpa using List.Sublist.cons₂ v (ih bs)
      | false => simpa using List.Sublist.cons v (ih bs)

/-- A successful filter loop is the mask selection of its per-element
predicate results. -/
theorem execFilterL_mask (reg : Registries) (query : Node) (s : Scope) :
    ∀ (l kept : List Value),
    execFilterL reg query s l = .ok kept →
    ∃ bs, execConds reg query s l = .ok bs ∧ kept = chooseMask l bs := by
  intro l
  induction l with
  | nil =>
    intro kept h
    simp only [execFilterL] at h
    have hw : kept = [] := by simpa using h.symm
    exact ⟨[], by simp [execConds], by simp [hw, chooseMask]⟩
  | cons v vs ih =>
    intro kept h
    simp only [execFilterL] at h
    cases hc : execute reg query (s.createNested v) with
    | error e => simp [hc] at h
    | ok c =>
      simp only [hc, ok_bind] at h
      cases hb : c.getBooleanE with
      | error e => simp [hb] at h
      | ok b =>
        simp only [hb, ok_bind] at h
        cases hr : execFilterL reg query s vs with
        | error e => simp [hr] at h
        | ok rest =>
          simp only [hr, ok_bind] at h
          obtain ⟨bs, hconds, hmask⟩ := ih rest hr
          refine ⟨b :: bs, by simp [execConds, hc, hb, hconds], ?_⟩
          have hw : kept = if b then v :: rest else rest := by
            simpa using h.symm
          rw [chooseMask_cons, ← hmask]
          exact hw

/-- The dereference scan is a first-match search on `_id` when no
document is JS `null`. -/
theorem derefScan_find : ∀ (docs : List JSValue) (id : String),
    (∀ d ∈ docs, d ≠ .null) →
    derefScan docs id
      = .ok (match docs.find? (matchId id) with
             | some d => .static d
             | none => NULL_VALUE) := by
  intro docs
  induction docs with
  | nil => intro id h; simp [derefScan]
  | cons d rest ih =>
    intro id h
    have hd : d ≠ .null := h d (List.mem_cons_self d rest)
    have hrest : ∀ x ∈ rest, x ≠ .null :=
      fun x hx => h x (List.mem_cons_of_mem d hx)
    cases d with
    | null => exact absurd rfl hd
    | obj fs =>
      simp only [derefScan, jsPropE, ok_bind]
      cases hl : List.lookup "_id" fs with
      | none =>
        rw [ih id hrest]
        simp [List.find?_cons, matchId, hl]
      | some w =>
        cases w with
        | str sid =>
          by_cases hs : (sid == id) = true
          · simp [hs, List.find?_cons, matchId, hl]
          · have hs' : (sid == id) = false := by
              simpa using hs
            simp [hs', List.find?_cons, matchId, hl, ih id hrest]
        | null =>
          rw [ih id hrest]
          simp [List.find?_cons, matchId, hl]
        | bool b =>
          rw [ih id hrest]
          simp [List.find?_cons, matchId, hl]
        | num n =>
          rw [ih id hrest]
          simp [List.find?_cons, matchId, hl]
        | obj fs2 =>
          rw [ih id hrest]
          simp [List.find?_cons, matchId, hl]
        | arr xs =>
          rw [ih id hrest]
          simp [List.find?_cons, matchId, hl]
        | fnVal =>
          rw [ih id hrest]
          simp [List.find?_cons, matchId, hl]
    | bool b =>
      simp only [derefScan, jsPropE, ok_bind]
      rw [ih id hrest]
      simp [List.find?_cons, matchId]
    | num n =>
      simp only [derefScan, jsPropE, ok_bind]
      rw [ih id hrest]
      simp [List.find?_cons, matchId]
    | str s2 =>
      simp only [derefScan, jsPropE, ok_bind]
      rw [ih id hrest]
      simp [List.find?_cons, matchId]
    | arr xs =>
      simp only [derefScan, jsPropE, ok_bind]
      rw [ih id hrest]
      simp [List.find?_cons, matchId]
    | fnVal =>
      simp only [derefScan, jsPropE, ok_bind]
      rw [ih id hrest]
      simp [List.find?_cons, matchId]

/-- Claim C6, witness: the general bound-normalization equation applied
to the inclusive 1..2 slice of [1,2,3,4]. -/
theorem claim_C6_witness :
    execute emptyReg (.slice (.value (.arr [.num 1, .num 2, .num 3, .num 4]))
      (.value (.num 1)) (.value (.num 2)) false) (.mk [] [] NULL_VALUE none)
      = .ok (.static (.arr
          (sliceSpec [.num 1, .num 2, .num 3, .num 4] 1 2 false))) :=
  (claim_C6 emptyReg (.mk [] [] NULL_VALUE none)
    (.value (.arr [.num 1, .num 2, .num 3, .num 4]))
    (.value (.num 1)) (.value (.num 2)) false).1
    (.static (.arr [.num 1, .num 2, .num 3, .num 4]))
    [.num 1, .num 2, .num 3, .num 4] 1 2
    (by simp [execute]) (by simp [Value.getTypeE, JSValue.typeOf])
    (by simp [Value.getE]) (by simp [execute]) (by simp [execute])

/-- Claim C7: Flatten yields NULL_VALUE on a non-array base; over an
array base it streams, in base order, the elements of each array-typed
element (depth one) and a single NULL_VALUE in place of each non-array
element; in particular `[[1,2],3,[4]]` flattens to a stream that
materializes to `[1,2,null,4]`. -/
theorem claim_C7 (reg : Registries) (s : Scope) (base : Node) :
    (∀ bv t, execute reg base s = .ok bv → bv.getTypeE = .ok t →
      t ≠ "array" → execute reg (.flatten base) s = .ok NULL_VALUE)
    ∧ (∀ bv flat, execute reg base s = .ok bv →
        bv.getTypeE = .ok "array" → flattenL bv.iter = .ok flat →
        execute reg (.flatten base) s = .ok (.stream flat))
    ∧ (∀ vs ws, flattenL vs = .ok ws →
        ws = vs.flatMap (fun v =>
          if v.isArrayType then v.iter else [NULL_VALUE]))
    ∧ execute reg (.flatten (.value (.arr [.arr [.num 1, .num 2], .num 3,
        .arr [.num 4]]))) s
        = .ok (.stream [.static (.num 1), .static (.num 2), NULL_VALUE,
            .static (.num 4)])
    ∧ (Value.stream [.static (.num 1), .static (.num 2), NULL_VALUE,
        .static (.num 4)]).getE
        = .ok (.arr [.num 1, .num 2, .null, .num 4]) := by
  refine ⟨?_, ?_, flattenL_flatMap, ?_, ?_⟩
  · intro bv t hb ht hne
    simp [execute, hb, ht, hne]
  · intro bv flat hb ht hf
    simp [execute, hb, ht, hf]
  · simp [execute, flattenL, Value.getTypeE, JSValue.typeOf, Value.iter,
      NULL_VALUE]
  · simp [Value.getE, Value.getListE, NULL_VALUE]

/-- Claim C7, witness: the streaming equation applied to a singleton
base whose only element is not an array, which is replaced by a
NULL_VALUE rather than dropped. -/
theorem claim_C7_witness :
    execute emptyReg (.flatten (.value (.arr [.num 7])))
      (.mk [] [] NULL_VALUE none) = .ok (.stream [NULL_VALUE]) :=
  (claim_C7 emptyReg (.mk [] [] NULL_VALUE none)
    (.value (.arr [.num 7]))).2.1 (.static (.arr [.num 7])) [NULL_VALUE]
    (by simp [execute]) (by simp [Value.getTypeE, JSValue.typeOf])
    (by simp [flattenL, Value.iter, Value.getTypeE, JSValue.typeOf])

/-- Claim C8: Deref yields NULL_VALUE on a non-object base, on a
missing `_ref`, and on a non-string `_ref`; with a string `_ref` it
linearly scans the document source and returns the first document
whose `_id` equals the reference, or NULL_VALUE when the source is
exhausted without a match. -/
theorem claim_C8 (reg : Registries) (s : Scope) (base : Node) :
    (∀ bv t, execute reg base s = .ok bv → bv.getTypeE = .ok t →
      t ≠ "object" → execute reg (.deref base) s = .ok NULL_VALUE)
    ∧ (∀ bv fs, execute reg base s = .ok bv →
        bv.getTypeE = .ok "object" → bv.getE = .ok (.obj fs) →
        (List.lookup "_ref" fs = none →
          execute reg (.deref base) s = .ok NULL_VALUE)
        ∧ (∀ w, List.lookup "_ref" fs = some w →
            (∀ str, w ≠ .str str) →
            execute reg (.deref base) s = .ok NULL_VALUE)
        ∧ (∀ id, List.lookup "_ref" fs = some (.str id) →
            execute reg (.deref base) s = derefScan s.source id))
    ∧ (∀ (docs : List JSValue) (id : String),
        (∀ d ∈ docs, d ≠ .null) →
        derefScan docs id
          = .ok (match docs.find? (matchId id) with
                 | some d => .static d
                 | none => NULL_VALUE)) := by
  refine ⟨?_, ?_, derefScan_find⟩
  · intro bv t hb ht hne
    simp [execute, hb, ht, hne]
  · intro bv fs hb ht hg
    refine ⟨?_, ?_, ?_⟩
    · intro hl
      simp [execute, hb, ht, hg, JSValue.asObj, hl]
    · intro w hl hw
      cases w with
      | str str2 => exact absurd rfl (hw str2)
      | null => simp [execute, hb, ht, hg, JSValue.asObj, hl]
      | bool b => simp [execute, hb, ht, hg, JSValue.asObj, hl]
      | num n => simp [execute, hb, ht, hg, JSValue.asObj, hl]
      | obj fs2 => simp [execute, hb, ht, hg, JSValue.asObj, hl]
      | arr xs => simp [execute, hb, ht, hg, JSValue.asObj, hl]
      | fnVal => simp [execute, hb, ht, hg, JSValue.asObj, hl]
    · intro id hl
      simp [execute, hb, ht, hg, JSValue.asObj, hl]

/-- Claim C8, witness: the spec's concrete example — documents
`[{_id:"x",v:1}, {_id:"y",v:2}]` and a base `{_ref:"y"}` resolve to
the second document. -/
theorem claim_C8_witness :
    derefScan [.obj [("_id", .str "x"), ("v", .num 1)],
               .obj [("_id", .str "y"), ("v", .num 2)]] "y"
      = .ok (.static (.obj [("_id", .str "y"), ("v", .num 2)])) := by
  have h := (claim_C8 emptyReg (.mk [] [] NULL_VALUE none) .this).2.2
    [.obj [("_id", .str "x"), ("v", .num 1)],
     .obj [("_id", .str "y"), ("v", .num 2)]] "y"
    (by intro d hd
        simp only [List.mem_cons, List.not_mem_nil, or_false] at hd
        rcases hd with rfl | rfl <;> simp)
  simpa [List.find?, matchId, List.lookup] using h

/-- Claim C9: Filter yields NULL_VALUE on a non-array base; over an
array base it streams exactly the elements whose predicate evaluation
in a nested scope coerces to boolean true, in original order, and the
kept sequence is a sublist (subsequence: stable order, no reordering,
no duplication) of the base sequence. -/
theorem claim_C9 (reg : Registries) (query : Node) (s : Scope)
    (base : Node) :
    (∀ bv t, execute reg base s = .ok bv → bv.getTypeE = .ok t →
      t ≠ "array" → execute reg (.filter base query) s = .ok NULL_VALUE)
    ∧ (∀ bv kept, execute reg base s = .ok bv →
        bv.getTypeE = .ok "array" →
        execFilterL reg query s bv.iter = .ok kept →
        execute reg (.filter base query) s = .ok (.stream kept))
    ∧ (∀ l kept, execFilterL reg query s l = .ok kept →
        ∃ bs, execConds reg query s l = .ok bs ∧ kept = chooseMask l bs)
    ∧ (∀ l kept, execFilterL reg query s l = .ok kept →
        List.Sublist kept l) := by
  refine ⟨?_, ?_, execFilterL_mask reg query s, ?_⟩
  · intro bv t hb ht hne
    simp [execute, hb, ht, hne]
  · intro bv kept hb ht hf
    simp [execute, hb, ht, hf]
  · intro l kept h
    obtain ⟨bs, _, hmask⟩ := execFilterL_mask reg query s l kept h
    rw [hmask]
    exact chooseMask_sublist l bs

/-- Claim C9, witness: filtering `[true, 5, true]` by the identity
predicate keeps exactly the two literal `true` elements, in order. -/
theorem claim_C9_witness :
    execute emptyReg
      (.filter (.value (.arr [.bool true, .num 5, .bool true])) .this)
      (.mk [] [] NULL_VALUE none)
      = .ok (.stream [.static (.bool true), .static (.bool true)]) :=
  (claim_C9 emptyReg .this (.mk [] [] NULL_VALUE none)
    (.value (.arr [.bool true, .num 5, .bool true]))).2.1
    (.static (.arr [.bool true, .num 5, .bool true]))
    [.static (.bool true), .static (.bool true)]
    (by simp [execute]) (by simp [Value.getTypeE, JSValue.typeOf])
    (by simp [execFilterL, execute, Value.iter, Scope.createNested,
      Scope.value, Value.getBooleanE])

end Groq
